import Mathlib

/-!
Verification of the feed-loading orchestration of the HackerNews component
(src/src/components/HackerNews.tsx), as a shallow embedding.

The component keeps four state fields (`stories`, `loading`, `refreshing`,
`error`) and a single async `fetchStories(isRefresh)` routine that

  1. sets `refreshing` (if `isRefresh`) or `loading`, clears `error`,
  2. fetches the index of story ids, takes the first `initialLimit`,
  3. fetches each item in parallel with `Promise.all`,
  4. on success publishes `results.filter(Boolean)` to `stories`,
  5. on any thrown error sets a fixed message into `error`,
  6. in a `finally` block clears `loading` and `refreshing`.

The network is modelled as an environment: the index fetch is one outcome
(resolved with a list of ids, or rejected — covering network errors, JSON
parse errors and non-array bodies, all of which throw inside the same
`try`), and each item fetch maps an id to an outcome resolving to an
optional story (JSON `null` becomes `none`) or rejecting.
-/

/-- One story record, per the `HNStory` interface of the source.
The source field `by` is a Lean keyword, hence `by_`. -/
structure HNStory where
  id : Int
  title : String
  url : Option String
  text : Option String
  by_ : String
  time : Int
  score : Int
  descendants : Int
  type : String
deriving DecidableEq, Repr

/-- The component's state hooks: `stories`, `loading`, `refreshing`, `error`. -/
structure FeedState where
  stories : List HNStory
  loading : Bool
  refreshing : Bool
  error : Option String
deriving DecidableEq, Repr

/-- The state at component start: `useState([], true, false, null)`. -/
def initialState : FeedState :=
  { stories := [], loading := true, refreshing := false, error := none }

/-- Outcome of one awaited fetch-and-parse: the promise resolved with a
value, or rejected (network error / parse error). -/
inductive FetchOutcome (α : Type) where
  | resolved : α → FetchOutcome α
  | rejected : FetchOutcome α
deriving DecidableEq, Repr

/-- The remote world for one load: the index endpoint's outcome (a JSON
array of ids, or a failure) and each item endpoint's outcome (a story, JSON
`null` as `none`, or a failure). -/
structure Env where
  index : FetchOutcome (List Int)
  item : Int → FetchOutcome (Option HNStory)

/-- `Promise.all` over the detail fetches of a list of ids: resolves with
all values in order when every fetch resolves, rejects when any rejects. -/
def promiseAll (f : Int → FetchOutcome (Option HNStory)) :
    List Int → FetchOutcome (List (Option HNStory))
  | [] => .resolved []
  | i :: is =>
    match f i, promiseAll f is with
    | .resolved a, .resolved as => .resolved (a :: as)
    | _, _ => .rejected

/-- The fixed user-facing error message set in the `catch` branch. -/
def failMsg : String :=
  "Failed to fetch Hacker News stories. Please try again later."

/-- The start of `fetchStories`: `if (isRefresh) setRefreshing(true) else
setLoading(true); setError(null)`. -/
def fetchStart (isRefresh : Bool) (s : FeedState) : FeedState :=
  let s1 := if isRefresh then { s with refreshing := true }
            else { s with loading := true }
  { s1 with error := none }

/-- The `try`/`catch` body of `fetchStories`: fetch the index, slice to
`initialLimit`, `Promise.all` the detail fetches, publish
`results.filter(Boolean)`; any rejection lands in `catch`, which sets
`error` to the fixed message and leaves `stories` untouched. -/
def fetchBody (initialLimit : Nat) (env : Env) (s : FeedState) : FeedState :=
  match env.index with
  | .rejected => { s with error := some failMsg }
  | .resolved storyIds =>
    match promiseAll env.item (storyIds.take initialLimit) with
    | .rejected => { s with error := some failMsg }
    | .resolved storyResults =>
      { s with stories := storyResults.filterMap id }

/-- The `finally` block: `setLoading(false); setRefreshing(false)`. -/
def fetchFinally (s : FeedState) : FeedState :=
  { s with loading := false, refreshing := false }

/-- The whole of `fetchStories(isRefresh)` as a state transformer over the
environment: start, body-with-catch, finally. -/
def fetchStories (initialLimit : Nat) (env : Env) (isRefresh : Bool)
    (s : FeedState) : FeedState :=
  fetchFinally (fetchBody initialLimit env (fetchStart isRefresh s))

/-- If every item fetch in `l` resolves to `g i`, `Promise.all` resolves
with the mapped list. -/
theorem promiseAll_eq_map (f : Int → FetchOutcome (Option HNStory))
    (g : Int → Option HNStory) (l : List Int)
    (h : ∀ i ∈ l, f i = .resolved (g i)) :
    promiseAll f l = .resolved (l.map g) := by
  induction l with
  | nil => rfl
  | cons hd tl ih =>
    have hhd := h hd (List.mem_cons_self hd tl)
    have htl := ih (fun i hi => h i (List.mem_cons_of_mem hd hi))
    simp [promiseAll, hhd, htl]

/-- If some item fetch in `l` rejects, `Promise.all` rejects. -/
theorem promiseAll_rejected (f : Int → FetchOutcome (Option HNStory))
    (l : List Int) (j : Int) (hj : j ∈ l) (h : f j = .rejected) :
    promiseAll f l = .rejected := by
  induction l with
  | nil => cases hj
  | cons hd tl ih =>
    rcases List.mem_cons.mp hj with heq | hmem
    · subst heq
      simp [promiseAll, h]
    · have := ih hmem
      cases hfhd : f hd <;> simp [promiseAll, hfhd, this]

/-- When every published record's `id` equals the id it was fetched for,
the published id sequence is an order-preserving subsequence of the
fetched id list. -/
theorem map_id_filterMap_sublist (d : Int → Option HNStory)
    (hid : ∀ i r, d i = some r → r.id = i) (l : List Int) :
    ((l.filterMap d).map HNStory.id).Sublist l := by
  induction l with
  | nil => simp
  | cons hd tl ih =>
    cases h : d hd with
    | none =>
      rw [List.filterMap_cons_none h]
      exact ih.cons hd
    | some r =>
      rw [List.filterMap_cons_some h, List.map_cons, hid hd r h]
      exact ih.cons₂ hd

/-! Concrete fixtures used by witnesses and counterexamples: the spec's
scenario with index `[10, 20, 30]`, a valid record for ids 10 and 30, and
an id 20 whose detail fetch either resolves to `null` or rejects. -/

def r10 : HNStory :=
  { id := 10, title := "Story ten", url := some "https://www.example.com/a",
    text := none, by_ := "alice", time := 1700000000, score := 42,
    descendants := 7, type := "story" }

def r30 : HNStory :=
  { id := 30, title := "Story thirty", url := none, text := some "ask",
    by_ := "bob", time := 1700000100, score := 5,
    descendants := 0, type := "story" }

/-- Detail results: a record for 10 and 30, JSON `null` for everything
else (in particular for 20). -/
def dGood : Int → Option HNStory := fun i =>
  if i = 10 then some r10 else if i = 30 then some r30 else none

theorem dGood_id : ∀ i r, dGood i = some r → r.id = i := by
  intro i r h
  by_cases h10 : i = 10
  · subst h10
    simp [dGood] at h
    subst h
    rfl
  · by_cases h30 : i = 30
    · subst h30
      simp [dGood] at h
      subst h
      rfl
    · simp [dGood, h10, h30] at h

/-- Every fetch settles; detail of 20 is `null`. -/
def envGood : Env :=
  { index := .resolved [10, 20, 30], item := fun i => .resolved (dGood i) }

/-- The detail fetch for 20 rejects; the others settle. -/
def envPartial : Env :=
  { index := .resolved [10, 20, 30],
    item := fun i => if i = 20 then .rejected else .resolved (dGood i) }

/-- The index fetch itself fails. -/
def envFail : Env := { index := .rejected, item := fun _ => .rejected }

/-- A content state as left by a successful load of `envGood`. -/
def contentState : FeedState :=
  { stories := [r10, r30], loading := false, refreshing := false,
    error := none }

/-- Claim C1: for every limit L ≥ 1, when the index resolves and every
detail fetch settles, the published `stories` are the detail records of
the first L ids in index order with `null` results removed; the length is
at most L and the published ids form an order-preserving subsequence of
the truncated index list. -/
theorem stories_are_filtered_details (L : Nat) (hL : 1 ≤ L) (env : Env)
    (ids : List Int) (details : Int → Option HNStory)
    (hidx : env.index = .resolved ids)
    (hdet : ∀ i, env.item i = .resolved (details i))
    (hid : ∀ i r, details i = some r → r.id = i)
    (b : Bool) (s : FeedState) :
    (fetchStories L env b s).stories = (ids.take L).filterMap details ∧
    (fetchStories L env b s).stories.length ≤ L ∧
    ((fetchStories L env b s).stories.map HNStory.id).Sublist
      (ids.take L) := by
  have hall := promiseAll_eq_map env.item details (ids.take L)
    (fun i _ => hdet i)
  have hstories : (fetchStories L env b s).stories =
      (ids.take L).filterMap details := by
    simp only [fetchStories, fetchFinally, fetchBody, hidx, hall]
    rw [List.filterMap_map, Function.id_comp]
  refine ⟨hstories, ?_, ?_⟩
  · rw [hstories]
    calc ((ids.take L).filterMap details).length
        ≤ (ids.take L).length := List.length_filterMap_le _ _
      _ ≤ L := by rw [List.length_take]; omega
  · rw [hstories]
    exact map_id_filterMap_sublist details hid (ids.take L)

theorem stories_are_filtered_details_witness :
    (1 ≤ 3) ∧
    ((fetchStories 3 envGood false initialState).stories = [r10, r30]) ∧
    ((fetchStories 3 envGood false initialState).stories =
      (([10, 20, 30] : List Int).take 3).filterMap dGood ∧
     (fetchStories 3 envGood false initialState).stories.length ≤ 3 ∧
     ((fetchStories 3 envGood false initialState).stories.map
        HNStory.id).Sublist (([10, 20, 30] : List Int).take 3)) :=
  ⟨by decide, by decide,
    stories_are_filtered_details 3 (by decide) envGood [10, 20, 30] dGood
      rfl (fun _ => rfl) dGood_id false initialState⟩

/-- Claim C3: when the index fetch fails, `error` is set to the fixed
message and `stories` is left exactly as it was; the state transformer is
total, so nothing propagates to the caller. -/
theorem index_failure_sets_error (L : Nat) (env : Env)
    (hidx : env.index = .rejected) (b : Bool) (s : FeedState) :
    (fetchStories L env b s).error = some failMsg ∧
    (fetchStories L env b s).stories = s.stories := by
  cases b <;>
    simp [fetchStories, fetchFinally, fetchBody, fetchStart, hidx]

theorem index_failure_sets_error_witness :
    (fetchStories 3 envFail false contentState).error = some failMsg ∧
    (fetchStories 3 envFail false contentState).stories =
      contentState.stories :=
  index_failure_sets_error 3 envFail rfl false contentState

/-- Claim C10 (implicit): if the index resolves but any single detail
fetch rejects, `Promise.all` rejects and the whole load takes the
top-level failure path: `error` gets the same generic message as an
index-fetch failure, `stories` is unchanged, and no partial batch is
published. -/
theorem detail_rejection_fails_whole_load (L : Nat) (env : Env)
    (ids : List Int)
    (hidx : env.index = .resolved ids)
    (hrej : ∃ j ∈ ids.take L, env.item j = .rejected)
    (b : Bool) (s : FeedState) :
    (fetchStories L env b s).error = some failMsg ∧
    (fetchStories L env b s).stories = s.stories := by
  obtain ⟨j, hj, hjr⟩ := hrej
  have hall := promiseAll_rejected env.item (ids.take L) j hj hjr
  cases b <;>
    simp [fetchStories, fetchFinally, fetchBody, fetchStart, hidx, hall]

theorem detail_rejection_fails_whole_load_witness :
    (fetchStories 3 envPartial false initialState).error = some failMsg ∧
    (fetchStories 3 envPartial false initialState).stories =
      initialState.stories :=
  detail_rejection_fails_whole_load 3 envPartial [10, 20, 30] rfl
    ⟨20, by decide, rfl⟩ false initialState

/-- Claim C2 counterexample: the claim says an individual detail-fetch
failure is not surfaced in `error` and the remaining records are still
published. With index `[10, 20, 30]`, the fetch for 20 rejecting and
those for 10 and 30 resolving, the load instead sets `error` and
publishes nothing. -/
theorem detail_rejection_not_dropped_cex :
    ¬ ((fetchStories 3 envPartial false initialState).error = none ∧
       (fetchStories 3 envPartial false initialState).stories =
         [r10, r30]) := by
  decide

/-- Claim C2 amended: an individual detail-fetch rejection is not
silently dropped: it makes `Promise.all` reject, so the whole load takes
the failure path — `error` is set (to the generic message) and no record
of the batch, not even the successfully fetched ones, is published. Only
detail fetches that settle with an empty/`null` body are silently
dropped. -/
theorem detail_rejection_surfaces_error (L : Nat) (env : Env)
    (ids : List Int) (j : Int)
    (hidx : env.index = .resolved ids)
    (hj : j ∈ ids.take L) (hjr : env.item j = .rejected)
    (b : Bool) (s : FeedState) :
    (fetchStories L env b s).error ≠ none ∧
    (fetchStories L env b s).stories = s.stories := by
  have hall := promiseAll_rejected env.item (ids.take L) j hj hjr
  cases b <;>
    simp [fetchStories, fetchFinally, fetchBody, fetchStart, hidx, hall]

theorem detail_rejection_surfaces_error_witness :
    (fetchStories 3 envPartial true contentState).error ≠ none ∧
    (fetchStories 3 envPartial true contentState).stories =
      contentState.stories :=
  detail_rejection_surfaces_error 3 envPartial [10, 20, 30] 20 rfl
    (by decide) rfl true contentState

/-- Claim C9: re-running the load (retry, `isRefresh = false`) against
unchanged remote responses after a successful load publishes the same
`stories` sequence. -/
theorem retry_after_success_idempotent (L : Nat) (env : Env)
    (ids : List Int) (details : Int → Option HNStory)
    (hidx : env.index = .resolved ids)
    (hdet : ∀ i, env.item i = .resolved (details i))
    (b : Bool) (s : FeedState) :
    (fetchStories L env false (fetchStories L env b s)).stories =
      (fetchStories L env b s).stories := by
  have hall := promiseAll_eq_map env.item details (ids.take L)
    (fun i _ => hdet i)
  cases b <;>
    simp [fetchStories, fetchFinally, fetchBody, fetchStart, hidx, hall]

theorem retry_after_success_idempotent_witness :
    (fetchStories 3 envGood false
        (fetchStories 3 envGood false initialState)).stories =
      (fetchStories 3 envGood false initialState).stories :=
  retry_after_success_idempotent 3 envGood [10, 20, 30] dGood rfl
    (fun _ => rfl) false initialState

/-- Claim C5: the `finally` block clears both flags whatever the outcome,
so every completed load ends with `loading = false` and
`refreshing = false`; and `refreshing` is set at the start of a cycle
exactly when the cycle is refresh-triggered (`fetchStories(true)`), a
non-refresh cycle leaving it as it was. -/
theorem flags_cleared_after_load (L : Nat) (env : Env) (b : Bool)
    (s : FeedState) :
    (fetchStories L env b s).loading = false ∧
    (fetchStories L env b s).refreshing = false ∧
    (fetchStart true s).refreshing = true ∧
    (fetchStart false s).refreshing = s.refreshing :=
  ⟨rfl, rfl, rfl, rfl⟩

/-- Claim C7 counterexample: the claim says that after any completed
fetch cycle `loading` is false from then on. After a completed first
cycle on `envGood`, starting a retry (`fetchStories(false)`, the path the
Retry and More-Stories buttons take) sets `loading` back to true. -/
theorem loading_true_after_first_cycle_cex :
    (fetchStories 3 envGood false initialState).loading = false ∧
    (fetchStart false (fetchStories 3 envGood false initialState)).loading
      = true :=
  ⟨rfl, rfl⟩

/-- Claim C7 amended: every completed fetch cycle ends with
`loading = false`, and it stays false until a non-refresh fetch begins:
a refresh-triggered cycle never sets `loading`, while any non-refresh
fetch (the initial load, Retry, More Stories) sets it to true for the
duration of that cycle. -/
theorem loading_false_after_cycle (L : Nat) (env : Env) (b : Bool)
    (s : FeedState) :
    (fetchStories L env b s).loading = false ∧
    (fetchStart true s).loading = s.loading ∧
    (fetchStart false s).loading = true :=
  ⟨rfl, rfl, rfl⟩

/-! The main-content render of the component. The JSX is a two-level
conditional: `loading && !refreshing` shows the spinner, else a set
`error` shows the error message with a Retry button, else the story
list. -/

inductive MainView where
  | spinner
  | errorPanel (msg : String)
  | storyList (stories : List HNStory)
deriving DecidableEq, Repr

/-- The render branch picked by the component's main content area. -/
def renderMain (s : FeedState) : MainView :=
  if s.loading && !s.refreshing then .spinner
  else
    match s.error with
    | some m => .errorPanel m
    | none => .storyList s.stories

/-- Claim C8 counterexample: the claim says that in the Error phase the
content from before the failed attempt is still displayed. After a
successful load (stories `[r10, r30]`) followed by a load whose index
fetch fails, the prior stories are still in state, yet the component
renders the error panel instead of the story list: the displayed list is
blanked. -/
theorem error_phase_hides_content_cex :
    ((fetchStories 3 envFail true contentState).stories = [r10, r30]) ∧
    (renderMain (fetchStories 3 envFail true contentState) =
      .errorPanel failMsg) ∧
    (renderMain (fetchStories 3 envFail true contentState) ≠
      .storyList [r10, r30]) := by
  decide

/-- Claim C8 amended: in the Error phase the prior `stories` are
preserved in state but not displayed: whenever a load fails at the index
fetch, the component keeps `stories` unchanged yet renders the error
panel (message plus Retry affordance) in place of the story list, until
a later successful load clears `error`. -/
theorem error_view_replaces_list (L : Nat) (env : Env) (b : Bool)
    (s : FeedState) (hidx : env.index = .rejected) :
    (fetchStories L env b s).stories = s.stories ∧
    renderMain (fetchStories L env b s) = .errorPanel failMsg := by
  cases b <;>
    simp [fetchStories, fetchFinally, fetchBody, fetchStart, renderMain,
      hidx]

theorem error_view_replaces_list_witness :
    (fetchStories 3 envFail true contentState).stories =
      contentState.stories ∧
    renderMain (fetchStories 3 envFail true contentState) =
      .errorPanel failMsg :=
  error_view_replaces_list 3 envFail true contentState rfl

/-! The `getHostname` helper:
`url ? (try { return new URL(url).hostname.replace('www.', '') } catch
{ return '' }) : ''`. The JS string `replace` with a string pattern
removes the FIRST occurrence of the pattern, wherever it is. -/

/-- If the pattern list starts the subject list, the rest of the subject
after it; otherwise nothing. -/
def dropStart : List Char → List Char → Option (List Char)
  | [], rest => some rest
  | _ :: _, [] => none
  | p :: ps, c :: cs => if p = c then dropStart ps cs else none

/-- Remove the leftmost occurrence of `pat`, as the JS
`s.replace(pat, '')` with a string pattern does; `s` unchanged when
`pat` does not occur. -/
def removeFirstL (pat : List Char) : List Char → List Char
  | [] => []
  | c :: cs =>
    match dropStart pat (c :: cs) with
    | some rest => rest
    | none => c :: removeFirstL pat cs

/-- String wrapper of `removeFirstL`: `s.replace(pat, '')`. -/
def replaceFirst (s pat : String) : String := ⟨removeFirstL pat.data s.data⟩

/-- Modelled from the spec: the platform URL parser used by the source
(`new URL(url).hostname`) is not part of this repository. This models
its hostname extraction for plain absolute `http`/`https` URLs without
userinfo — the characters after the scheme separator up to the first of
`/ ? # :` — and yields `none` (the constructor throws) otherwise. -/
def urlHost (u : String) : Option String :=
  let keep : Char → Bool := fun c =>
    !(c == '/' || c == '?' || c == '#' || c == ':')
  let host : List Char → Option String := fun rest =>
    let h := rest.takeWhile keep
    if h.isEmpty then none else some ⟨h⟩
  match dropStart "https://".data u.data with
  | some rest => host rest
  | none =>
    match dropStart "http://".data u.data with
    | some rest => host rest
    | none => none

/-- `getHostname` of the source: empty for a falsy `url` (absent or the
empty string), empty when URL parsing throws, otherwise the parsed
hostname with `.replace('www.', '')` applied. -/
def getHostname (url : Option String) : String :=
  match url with
  | none => ""
  | some u =>
    if u = "" then ""
    else
      match urlHost u with
      | none => ""
      | some host => replaceFirst host "www."

/-- The spec's description of the helper, for comparison: strip `"www."`
from the host only when it is a leading prefix. -/
def stripLeadingWWW (host : String) : String :=
  match dropStart "www.".data host.data with
  | some rest => ⟨rest⟩
  | none => host

/-- Claim C4 counterexample: the claim says the helper returns the host
with a leading `www.` prefix stripped. On
`"https://blog.www.example.com/a"` the host is
`"blog.www.example.com"`, which has no leading `"www."`, so the claimed
behavior returns it unchanged — but `.replace('www.', '')` removes the
interior `"www."` and the code returns `"blog.example.com"`. -/
theorem getHostname_interior_www_cex :
    urlHost "https://blog.www.example.com/a" =
      some "blog.www.example.com" ∧
    stripLeadingWWW "blog.www.example.com" = "blog.www.example.com" ∧
    getHostname (some "https://blog.www.example.com/a") =
      "blog.example.com" ∧
    getHostname (some "https://blog.www.example.com/a") ≠
      stripLeadingWWW "blog.www.example.com" := by
  decide

/-- Claim C4 amended: `getHostname` is a total function (never raises).
It returns `""` when the url is absent, empty or unparsable, and
otherwise returns the parsed host with the first occurrence of the
substring `"www."` removed — equal to stripping a leading `"www."`
whenever `"www."` does not also occur in the interior of the host. -/
theorem getHostname_behavior :
    (getHostname none = "") ∧
    (getHostname (some "") = "") ∧
    (∀ u, u ≠ "" → urlHost u = none → getHostname (some u) = "") ∧
    (∀ u host, u ≠ "" → urlHost u = some host →
      getHostname (some u) = replaceFirst host "www.") := by
  refine ⟨rfl, rfl, ?_, ?_⟩
  · intro u hne hnone
    simp [getHostname, hne, hnone]
  · intro u host hne hsome
    simp [getHostname, hne, hsome]

theorem getHostname_behavior_witness :
    (("not a url" : String) ≠ "") ∧
    urlHost "not a url" = none ∧
    getHostname (some "not a url") = "" ∧
    (("https://www.example.com/a" : String) ≠ "") ∧
    urlHost "https://www.example.com/a" = some "www.example.com" ∧
    getHostname (some "https://www.example.com/a") =
      replaceFirst "www.example.com" "www." ∧
    replaceFirst "www.example.com" "www." = "example.com" :=
  ⟨by decide, by decide,
   getHostname_behavior.2.2.1 "not a url" (by decide) (by decide),
   by decide, by decide,
   getHostname_behavior.2.2.2 "https://www.example.com/a"
     "www.example.com" (by decide) (by decide),
   by decide⟩

/-! The auto-refresh effect. `useEffect` (dependency `[autoRefresh]`)
runs `fetchStories()` and, when `autoRefresh` is set, installs a
`setInterval` of `60000 * 5` ms whose callback is `fetchStories(true)`;
the effect's cleanup — run on unmount and before a re-run when
`autoRefresh` changes — clears the interval. Modelled as an event
system whose state records whether the interval is installed and the
log of `fetchStories` invocations (each entry the `isRefresh`
argument). -/

/-- The interval period of the source: `60000 * 5` ms. -/
def refreshIntervalMs : Nat := 60000 * 5

inductive HNEvent where
  /-- The effect (re)runs with the current `autoRefresh` value: any
  previous interval was cleared by the cleanup, `fetchStories()` is
  invoked, and an interval is installed iff `autoRefresh`. -/
  | run (autoRefresh : Bool)
  /-- Teardown: only the cleanup runs, clearing any interval. -/
  | cleanup
  /-- One interval period elapses; the callback `fetchStories(true)`
  fires iff the interval is installed. -/
  | tick
deriving DecidableEq, Repr

structure EffectSys where
  timerOn : Bool
  loads : List Bool
deriving DecidableEq, Repr

def effectStep (s : EffectSys) : HNEvent → EffectSys
  | .run a => { timerOn := a, loads := s.loads ++ [false] }
  | .cleanup => { s with timerOn := false }
  | .tick =>
    if s.timerOn then { s with loads := s.loads ++ [true] } else s

def effectRun (s : EffectSys) : List HNEvent → EffectSys
  | [] => s
  | e :: es => effectRun (effectStep s e) es

theorem effectRun_ticks_off (n : Nat) (s : EffectSys)
    (h : s.timerOn = false) :
    effectRun s (List.replicate n .tick) = s := by
  induction n with
  | zero => rfl
  | succ k ih =>
    rw [List.replicate_succ]
    show effectRun (effectStep s .tick) (List.replicate k .tick) = s
    have hs : effectStep s .tick = s := by simp [effectStep, h]
    rw [hs]
    exact ih

theorem effectRun_ticks_on (n : Nat) :
    ∀ s : EffectSys, s.timerOn = true →
      effectRun s (List.replicate n .tick) =
        { s with loads := s.loads ++ List.replicate n true } := by
  induction n with
  | zero =>
    intro s _
    simp [effectRun]
  | succ k ih =>
    intro s h
    rw [List.replicate_succ]
    show effectRun (effectStep s .tick) (List.replicate k .tick) = _
    have hs : effectStep s .tick = { s with loads := s.loads ++ [true] } := by
      simp [effectStep, h]
    rw [hs, ih _ (by simpa using h)]
    simp [List.replicate_succ]

/-- Claim C6: the interval period is 300000 ms; while the interval is
installed, each firing invokes the load with `isRefresh = true`; and
once the component is torn down, or the effect re-runs with
`autoRefresh = false`, no number of further elapsed periods ever
triggers a load again. -/
theorem autoRefresh_timer (s : EffectSys) (n : Nat) :
    refreshIntervalMs = 300000 ∧
    (s.timerOn = true →
      effectStep s .tick = { s with loads := s.loads ++ [true] }) ∧
    (effectRun (effectStep s .cleanup)
        (List.replicate n .tick)).loads = s.loads ∧
    (effectRun (effectStep s (.run false))
        (List.replicate n .tick)).loads =
      (effectStep s (.run false)).loads ∧
    (effectRun (effectStep s (.run true))
        (List.replicate n .tick)).loads =
      (effectStep s (.run true)).loads ++ List.replicate n true := by
  refine ⟨rfl, ?_, ?_, ?_, ?_⟩
  · intro h
    simp [effectStep, h]
  · rw [effectRun_ticks_off n _ (by simp [effectStep])]
    rfl
  · rw [effectRun_ticks_off n _ (by simp [effectStep])]
  · rw [effectRun_ticks_on n _ (by simp [effectStep])]

theorem autoRefresh_timer_witness :
    (⟨true, []⟩ : EffectSys).timerOn = true ∧
    effectStep ⟨true, []⟩ .tick = ⟨true, [true]⟩ ∧
    (effectRun (effectStep ⟨true, []⟩ .cleanup)
      (List.replicate 4 .tick)).loads = [] :=
  ⟨rfl, (autoRefresh_timer ⟨true, []⟩ 4).2.1 rfl,
    (autoRefresh_timer ⟨true, []⟩ 4).2.2.1⟩
